import Mathlib

/-!
Shallow embedding of the `vidar` environment-mapping crate
(`src/src/lib.rs`, `src/src/error.rs`) and proofs about its
kind taxonomy, property-file parser and load orchestration.

Files are modelled as the contents of the process's current working
directory: a map from file name (e.g. `"dev.env"`) to the list of lines
`BufReader::lines` would yield, `none` when `File::open` would fail.
-/

namespace Vidar

/-- Environment kinds: the `Kind` enum of `src/src/lib.rs`. -/
inductive Kind where
  | Common
  | Development
  | Test
  | Integration
  | Staging
  | Production
  deriving DecidableEq

/-- Error taxonomy generated by `error_chain!` in `src/src/error.rs`:
an I/O failure (foreign link), the config-path failure, an invalid kind
token (carrying the offending string), and an invalid property line. -/
inductive ErrorKind where
  | Io
  | ConfigPath
  | InvalidKind (name : String)
  | InvalidProperty
  deriving DecidableEq

/-- String-to-kind parsing: `impl TryFrom<&str> for Kind`. An exact,
case-sensitive match against the six canonical tokens; anything else is
`InvalidKind(name)`. -/
def Kind.tryFrom (name : String) : Except ErrorKind Kind :=
  if name = "common" then .ok .Common
  else if name = "dev" then .ok .Development
  else if name = "test" then .ok .Test
  else if name = "int" then .ok .Integration
  else if name = "stage" then .ok .Staging
  else if name = "prod" then .ok .Production
  else .error (.InvalidKind name)

/-- Kind-to-token mapping: `impl From<Kind> for &str` (and the identical
`impl From<Kind> for String`). -/
def Kind.toStr : Kind → String
  | .Common => "common"
  | .Development => "dev"
  | .Test => "test"
  | .Integration => "int"
  | .Staging => "stage"
  | .Production => "prod"

/-- The six canonical kind tokens, in source order. -/
def canonicalTokens : List String := ["common", "dev", "test", "int", "stage", "prod"]

/-- The `Config` struct of `src/src/lib.rs`: the kind to load plus the
optional flags. `baseDir` stands for the `base_dir: Option<PathBuf>` field. -/
structure Config where
  kind : Kind
  common : Option Bool
  recursive : Option Bool
  baseDir : Option String
  comments : Option Bool
  commentChar : Option Char
  deriving DecidableEq

/-- `Config::new(kind)`: the given kind, `common = Some(true)`, everything
else `None`. -/
def Config.new (kind : Kind) : Config :=
  { kind := kind, common := some true, recursive := none, baseDir := none,
    comments := none, commentChar := none }

/-- `impl Default for Config`: `Config::new(Kind::Common)`. -/
def Config.default : Config := Config.new Kind.Common

/-- The `Environment` result struct: the resolved kind and the merged
key-value pairs (the `HashMap` is modelled as a canonical association list:
insert overwrites in place, fresh keys are appended). -/
structure Environment where
  current : Kind
  props : List (String × String)
  deriving DecidableEq

/-- `const ENV_SUFFIX: &str = ".env"`. -/
def ENV_SUFFIX : String := ".env"

/-- File name derived for a kind: token ++ ".env" (`read_props_file`,
lines 149-151). -/
def envFileName (k : Kind) : String := k.toStr ++ ENV_SUFFIX

/-- Rust `line.starts_with(comment_char)` for a `char` pattern: true iff
the line is nonempty and its first character is `c`. -/
def firstCharIs (line : String) (c : Char) : Bool :=
  match line.data with
  | [] => false
  | ch :: _ => ch == c

/-- The comment test of `read_props_file` (lines 157-162): a line is
skipped iff `comments` is `Some(true)`, `comment_char` is `Some(c)` and the
line starts with `c`. -/
def isCommentLine (config : Config) (line : String) : Bool :=
  match config.comments, config.commentChar with
  | some true, some c => firstCharIs line c
  | _, _ => false

/-- Rust `str::split(c)`: fields between occurrences of `c`; an empty
string yields one empty field, `n` occurrences of `c` yield `n + 1`
fields. -/
def splitOnChar (c : Char) : List Char → List (List Char)
  | [] => [[]]
  | ch :: rest =>
    match splitOnChar c rest with
    | [] => [[]]
    | first :: others =>
      if ch == c then [] :: first :: others else (ch :: first) :: others

/-- `HashMap::insert` on the canonical association list: overwrite in
place when the key exists, append otherwise. -/
def insertProp : List (String × String) → String → String → List (String × String)
  | [], k, v => [(k, v)]
  | (k0, v0) :: rest, k, v =>
    if k0 = k then (k, v) :: rest else (k0, v0) :: insertProp rest k v

/-- `HashMap::get` on the canonical association list. -/
def lookupProp : List (String × String) → String → Option String
  | [], _ => none
  | (k0, v0) :: rest, k => if k0 = k then some v0 else lookupProp rest k

/-- One iteration of the line loop of `read_props_file` (lines 154-175):
skip comment lines, otherwise split on `=`, demand exactly two fields and
insert them, failing with `InvalidProperty` on any other field count. -/
def processLine (config : Config) (props : List (String × String)) (line : String) :
    Except ErrorKind (List (String × String)) :=
  if isCommentLine config line then .ok props
  else
    match splitOnChar '=' line.data with
    | [k, v] => .ok (insertProp props (String.mk k) (String.mk v))
    | _ => .error ErrorKind.InvalidProperty

/-- The line loop of `read_props_file`: fold `processLine` over the lines,
aborting at the first failure. -/
def readLines (config : Config) :
    List (String × String) → List String → Except ErrorKind (List (String × String))
  | props, [] => .ok props
  | props, line :: rest =>
    match processLine config props line with
    | .ok props2 => readLines config props2 rest
    | .error e => .error e

/-- `read_props_file(config, props)`: resolve `<kind-token>.env` in the
current directory, fail with an I/O error when the file cannot be opened,
otherwise run the line loop into the accumulating map. -/
def read_props_file (config : Config) (fs : String → Option (List String))
    (props : List (String × String)) : Except ErrorKind (List (String × String)) :=
  match fs (envFileName config.kind) with
  | none => .error ErrorKind.Io
  | some ls => readLines config props ls

/-- The common-file phase of `impl TryFrom<Config> for Environment`
(lines 202-206): when `common` is `Some(true)`, parse the common file with
a freshly defaulted config into the empty map; otherwise keep the map
empty. -/
def commonProps (config : Config) (fs : String → Option (List String)) :
    Except ErrorKind (List (String × String)) :=
  if config.common = some true
  then read_props_file Config.default fs []
  else Except.ok []

/-- `impl TryFrom<Config> for Environment` (lines 198-214): run the
common-file phase, then parse the kind-specific file with the caller's
config into the same map; the first failure aborts the whole load. -/
def loadEnv (config : Config) (fs : String → Option (List String)) :
    Except ErrorKind Environment :=
  match commonProps config fs with
  | .error e => .error e
  | .ok p0 =>
    match read_props_file config fs p0 with
    | .error e => .error e
    | .ok props => .ok { current := config.kind, props := props }

/-- The test fixture of `src/tests/lifecycle/mod.rs` restricted to the
files the claims use: common, dev, test, stage. -/
def fixtureFs : String → Option (List String) := fun name =>
  if name = "common.env" then some ["key1=val1", "key2=val2", "key3=val3"]
  else if name = "dev.env" then some ["url=https://localhost"]
  else if name = "test.env" then
    some ["# This is a comment", "url=https://testurl.vidar.com"]
  else if name = "stage.env" then some ["this is a bad property"]
  else none

/-- A directory whose common and dev files both define `url`. -/
def overlapFs : String → Option (List String) := fun name =>
  if name = "common.env" then some ["url=https://common", "key1=val1"]
  else if name = "dev.env" then some ["url=https://localhost"]
  else none

/-- An empty directory: every open fails. -/
def noneFs : String → Option (List String) := fun _ => none

/-- A directory whose common file holds the line `#a=b` — it starts with
the comment character yet splits into exactly two fields. -/
def c9Fs : String → Option (List String) := fun name =>
  if name = "common.env" then some ["#a=b"]
  else if name = "dev.env" then some ["url=x"]
  else none

/-- A directory whose common file holds only an ordinary comment line. -/
def c9BadFs : String → Option (List String) := fun name =>
  if name = "common.env" then some ["# This is a comment"]
  else none

/-! Helper lemmas about the association-list map. -/

/-- Looking up the key just inserted yields the inserted value. -/
theorem lookup_insertProp_self (p : List (String × String)) (k v : String) :
    lookupProp (insertProp p k v) k = some v := by
  induction p with
  | nil => simp [insertProp, lookupProp]
  | cons kv rest ih =>
    obtain ⟨k0, v0⟩ := kv
    by_cases h : k0 = k
    · simp [insertProp, h, lookupProp]
    · simp [insertProp, h, lookupProp, ih]

/-- Inserting one key leaves every other key's lookup unchanged. -/
theorem lookup_insertProp_ne (p : List (String × String)) (k v k1 : String)
    (h : k1 ≠ k) : lookupProp (insertProp p k v) k1 = lookupProp p k1 := by
  induction p with
  | nil => simp [insertProp, lookupProp, Ne.symm h]
  | cons kv rest ih =>
    obtain ⟨k0, v0⟩ := kv
    by_cases h0 : k0 = k
    · subst h0
      simp [insertProp, lookupProp, Ne.symm h]
    · by_cases h1 : k0 = k1
      · simp [insertProp, h0, lookupProp, h1, h]
      · simp [insertProp, h0, lookupProp, h1, ih]

/-- `ext` agrees with `base` on every key `base` holds and falls back to
`p0` elsewhere: the shape of a map obtained by replaying the same
insertions over the seed `p0` instead of over the empty map. -/
def OverrideOf (p0 base ext : List (String × String)) : Prop :=
  ∀ k, lookupProp ext k =
    match lookupProp base k with
    | some v => some v
    | none => lookupProp p0 k

theorem overrideOf_refl (p0 : List (String × String)) : OverrideOf p0 [] p0 :=
  fun _ => rfl

theorem overrideOf_insert (p0 base ext : List (String × String))
    (h : OverrideOf p0 base ext) (k v : String) :
    OverrideOf p0 (insertProp base k v) (insertProp ext k v) := by
  intro k1
  by_cases hk : k1 = k
  · subst hk
    simp [lookup_insertProp_self]
  · rw [lookup_insertProp_ne ext k v k1 hk, lookup_insertProp_ne base k v k1 hk]
    exact h k1

/-! Helper lemmas about the line loop. -/

/-- A line is processed the same way whatever the accumulated map is:
skipped, inserted as a fixed key-value pair, or rejected. -/
theorem processLine_cases (c : Config) (line : String) :
    (∀ p, processLine c p line = .ok p) ∨
    (∃ k v, ∀ p, processLine c p line = .ok (insertProp p k v)) ∨
    (∀ p, processLine c p line = .error .InvalidProperty) := by
  by_cases hc : isCommentLine c line = true
  · exact Or.inl fun p => by simp [processLine, hc]
  · rcases hs : splitOnChar '=' line.data with _ | ⟨a, _ | ⟨b, _ | ⟨d, tl⟩⟩⟩
    · exact Or.inr (Or.inr fun p => by simp [processLine, hc, hs])
    · exact Or.inr (Or.inr fun p => by simp [processLine, hc, hs])
    · exact Or.inr (Or.inl ⟨String.mk a, String.mk b, fun p => by
        simp [processLine, hc, hs]⟩)
    · exact Or.inr (Or.inr fun p => by simp [processLine, hc, hs])

/-- A non-comment line that does not split into exactly two fields is
rejected with `InvalidProperty`, whatever the accumulated map is. -/
theorem processLine_bad (c : Config) (line : String)
    (hc : isCommentLine c line = false)
    (hl : (splitOnChar '=' line.data).length ≠ 2) (p : List (String × String)) :
    processLine c p line = .error .InvalidProperty := by
  rcases hs : splitOnChar '=' line.data with _ | ⟨a, _ | ⟨b, _ | ⟨d, tl⟩⟩⟩
  · simp [processLine, hc, hs]
  · simp [processLine, hc, hs]
  · exact absurd (by rw [hs] ; rfl) hl
  · simp [processLine, hc, hs]

/-- Replaying the line loop over a seed map instead of the empty map
succeeds whenever the run from the empty map did, and the resulting map
overrides the seed key-by-key. -/
theorem readLines_override (c : Config) (p0 : List (String × String))
    (ls : List String) :
    ∀ base ext m : List (String × String), OverrideOf p0 base ext →
      readLines c base ls = .ok m →
      ∃ m2, readLines c ext ls = .ok m2 ∧ OverrideOf p0 m m2 := by
  induction ls with
  | nil =>
    intro base ext m hbe h
    simp only [readLines] at h
    injection h with h
    exact ⟨ext, rfl, h ▸ hbe⟩
  | cons line rest ih =>
    intro base ext m hbe h
    rcases processLine_cases c line with hcl | ⟨k, v, hkv⟩ | herr
    · simp only [readLines, hcl] at h ⊢
      exact ih base ext m hbe h
    · simp only [readLines, hkv] at h ⊢
      exact ih _ _ m (overrideOf_insert p0 base ext hbe k v) h
    · simp [readLines, herr] at h

/-- A bad line anywhere in the file makes the whole line loop fail with
`InvalidProperty`, whatever the accumulated map is. -/
theorem readLines_bad (c : Config) (line : String)
    (hc : isCommentLine c line = false)
    (hl : (splitOnChar '=' line.data).length ≠ 2) (ls : List String) :
    ∀ p : List (String × String), line ∈ ls →
      readLines c p ls = .error .InvalidProperty := by
  induction ls with
  | nil =>
    intro p h
    cases h
  | cons l rest ih =>
    intro p hmem
    rcases List.mem_cons.mp hmem with rfl | hmem2
    · simp only [readLines, processLine_bad c line hc hl p]
    · rcases processLine_cases c l with h1 | ⟨k, v, h2⟩ | h3
      · simp only [readLines, h1]
        exact ih p hmem2
      · simp only [readLines, h2]
        exact ih _ hmem2
      · simp only [readLines, h3]

/-! Congruence lemmas: the parser and the load only ever inspect the
`kind`, `common`, `comments` and `commentChar` fields of a `Config`. -/

theorem isCommentLine_congr (a b : Config) (h1 : a.comments = b.comments)
    (h2 : a.commentChar = b.commentChar) (line : String) :
    isCommentLine a line = isCommentLine b line := by
  simp [isCommentLine, h1, h2]

theorem processLine_congr (a b : Config) (h1 : a.comments = b.comments)
    (h2 : a.commentChar = b.commentChar) (p : List (String × String))
    (line : String) : processLine a p line = processLine b p line := by
  simp [processLine, isCommentLine_congr a b h1 h2 line]

theorem readLines_congr (a b : Config) (h1 : a.comments = b.comments)
    (h2 : a.commentChar = b.commentChar) (ls : List String) :
    ∀ p, readLines a p ls = readLines b p ls := by
  induction ls with
  | nil =>
    intro p
    rfl
  | cons line rest ih =>
    intro p
    simp only [readLines, processLine_congr a b h1 h2 p line]
    cases processLine b p line with
    | ok p2 => exact ih p2
    | error e => rfl

theorem read_props_file_congr (a b : Config) (hk : a.kind = b.kind)
    (h1 : a.comments = b.comments) (h2 : a.commentChar = b.commentChar)
    (fs : String → Option (List String)) :
    ∀ p, read_props_file a fs p = read_props_file b fs p := by
  intro p
  simp only [read_props_file, hk]
  cases fs (envFileName b.kind) with
  | none => rfl
  | some ls => exact readLines_congr a b h1 h2 ls p

/-! Helper lemmas about the load orchestration, shared by several
theorems below. -/

/-- With the common flag set, a missing common file aborts the load with
the I/O error. -/
theorem loadEnv_common_missing (cfg : Config)
    (fs : String → Option (List String)) (hc : cfg.common = some true)
    (hnone : fs (envFileName Kind.Common) = none) :
    loadEnv cfg fs = .error .Io := by
  have h0 : commonProps cfg fs = Except.error ErrorKind.Io := by
    unfold commonProps
    rw [if_pos hc]
    unfold read_props_file
    have hk : Config.default.kind = Kind.Common := rfl
    rw [hk, hnone]
  unfold loadEnv
  rw [h0]

/-- With the common flag set, any line of the common file that does not
split into exactly two fields on the equals sign aborts the load with
`InvalidProperty`: the common file is parsed with a freshly defaulted
config, so no line of it is ever treated as a comment. -/
theorem loadEnv_common_bad_line (cfg : Config)
    (fs : String → Option (List String)) (ls : List String) (line : String)
    (hc : cfg.common = some true) (hfs : fs (envFileName Kind.Common) = some ls)
    (hmem : line ∈ ls) (hsplit : (splitOnChar '=' line.data).length ≠ 2) :
    loadEnv cfg fs = .error .InvalidProperty := by
  have h0 : commonProps cfg fs = Except.error ErrorKind.InvalidProperty := by
    unfold commonProps
    rw [if_pos hc]
    unfold read_props_file
    have hk : Config.default.kind = Kind.Common := rfl
    rw [hk, hfs]
    exact readLines_bad Config.default line rfl hsplit ls [] hmem
  unfold loadEnv
  rw [h0]

/-! The claims. -/

/-- Claim C1: when the load succeeds, any key the kind-specific file
defines ends up in the final `props` with the kind-specific file's value
(the common file is parsed first into the same map and overwritten
key-by-key); `m` is the map the kind-specific file alone parses to. -/
theorem c1_kind_specific_value_wins (cfg : Config)
    (fs : String → Option (List String)) (env : Environment)
    (m : List (String × String)) (k v : String)
    (henv : loadEnv cfg fs = .ok env)
    (hm : read_props_file cfg fs [] = .ok m)
    (hv : lookupProp m k = some v) :
    lookupProp env.props k = some v := by
  unfold loadEnv at henv
  cases h0 : commonProps cfg fs with
  | error e => simp [h0] at henv
  | ok p0 =>
    cases h1 : read_props_file cfg fs p0 with
    | error e => simp [h0, h1] at henv
    | ok props =>
      simp only [h0, h1, Except.ok.injEq] at henv
      subst henv
      unfold read_props_file at hm h1
      cases hfs : fs (envFileName cfg.kind) with
      | none => simp [hfs] at hm
      | some ls =>
        simp only [hfs] at hm h1
        obtain ⟨m2, hm2, hov⟩ :=
          readLines_override cfg p0 ls [] p0 m (overrideOf_refl p0) hm
        rw [h1] at hm2
        injection hm2 with hm2
        subst hm2
        have hk := hov k
        rw [hv] at hk
        exact hk.trans rfl

/-- Claim C1 witness: with a common file defining `url` and `key1` and a
dev file overriding `url`, the loaded map holds the dev file's `url`. -/
theorem c1_kind_specific_value_wins_witness :
    lookupProp [("url", "https://localhost"), ("key1", "val1")] "url" =
      some "https://localhost" :=
  c1_kind_specific_value_wins (Config.new Kind.Development) overlapFs
    ⟨Kind.Development, [("url", "https://localhost"), ("key1", "val1")]⟩
    [("url", "https://localhost")] "url" "https://localhost" rfl rfl rfl

/-- Claim C2: a non-comment line whose split on the equals sign does not
yield exactly two fields fails the file read, and the whole load, with
`InvalidProperty`, so no `Environment` is returned; concretely, loading
kind `Staging` from the test fixture (whose stage file is the single line
`this is a bad property`) fails with `InvalidProperty`. -/
theorem c2_strict_two_field_split :
    (∀ (cfg : Config) (fs : String → Option (List String)) (ls : List String)
        (line : String) (p : List (String × String)),
        fs (envFileName cfg.kind) = some ls → line ∈ ls →
        isCommentLine cfg line = false →
        (splitOnChar '=' line.data).length ≠ 2 →
        read_props_file cfg fs p = .error .InvalidProperty ∧
          ∀ env, loadEnv cfg fs ≠ .ok env) ∧
    loadEnv (Config.new Kind.Staging) fixtureFs = .error .InvalidProperty := by
  constructor
  · intro cfg fs ls line p hfs hmem hcl hsplit
    have hread : ∀ q, read_props_file cfg fs q = .error .InvalidProperty := by
      intro q
      simp only [read_props_file, hfs]
      exact readLines_bad cfg line hcl hsplit ls q hmem
    refine ⟨hread p, ?_⟩
    intro env henv
    unfold loadEnv at henv
    cases h0 : commonProps cfg fs with
    | error e => simp [h0] at henv
    | ok p0 => simp [h0, hread p0] at henv
  · rfl

/-- Claim C2 witness: the stage file's only line has no equals sign, so
the kind-specific read fails with `InvalidProperty`. -/
theorem c2_strict_two_field_split_witness :
    read_props_file (Config.new Kind.Staging) fixtureFs [] =
      Except.error ErrorKind.InvalidProperty :=
  (c2_strict_two_field_split.1 (Config.new Kind.Staging) fixtureFs
    ["this is a bad property"] "this is a bad property" [] rfl (by decide) rfl
    (by decide)).1

/-- Claim C3: each of the six canonical tokens parses to a kind that
prints back to the same token, and every other string fails to parse with
`InvalidKind` carrying that string. -/
theorem c3_kind_token_round_trip :
    (∀ t, t ∈ canonicalTokens →
      ∃ k, Kind.tryFrom t = Except.ok k ∧ Kind.toStr k = t) ∧
    (∀ s, s ∉ canonicalTokens →
      Kind.tryFrom s = Except.error (ErrorKind.InvalidKind s)) := by
  constructor
  · intro t ht
    simp only [canonicalTokens, List.mem_cons, List.not_mem_nil, or_false] at ht
    rcases ht with rfl | rfl | rfl | rfl | rfl | rfl
    · exact ⟨Kind.Common, rfl, rfl⟩
    · exact ⟨Kind.Development, rfl, rfl⟩
    · exact ⟨Kind.Test, rfl, rfl⟩
    · exact ⟨Kind.Integration, rfl, rfl⟩
    · exact ⟨Kind.Staging, rfl, rfl⟩
    · exact ⟨Kind.Production, rfl, rfl⟩
  · intro s hs
    simp only [canonicalTokens, List.mem_cons, List.not_mem_nil, or_false,
      not_or] at hs
    obtain ⟨h1, h2, h3, h4, h5, h6⟩ := hs
    simp [Kind.tryFrom, h1, h2, h3, h4, h5, h6]

/-- Claim C3 witness: `dev` round-trips; the case-variant `Dev` is outside
the canonical set and fails with `InvalidKind "Dev"`. -/
theorem c3_kind_token_round_trip_witness :
    Kind.tryFrom "Dev" = Except.error (ErrorKind.InvalidKind "Dev") :=
  c3_kind_token_round_trip.2 "Dev" (by decide)

/-- Claim C5, counterexample: the default `Config` is
`Config::new(Kind::Common)`, so its kind is `Common` (not `Development`),
loading the common file is enabled (`common = Some(true)`, not disabled),
and no comment character is configured (not `'#'`). -/
theorem c5_default_config_counterexample :
    Config.default.kind = Kind.Common ∧
    Config.default.kind ≠ Kind.Development ∧
    Config.default.common = some true ∧
    Config.default.commentChar ≠ some '#' := by
  refine ⟨rfl, by decide, rfl, by decide⟩

/-- Claim C5 as amended: the default `Config` is `Config::new(Kind::Common)`:
kind `Common`, `common = Some(true)`, and `recursive`, `base_dir`,
`comments`, `comment_char` all `None`. -/
theorem c5_default_config_value :
    Config.default =
      { kind := Kind.Common, common := some true, recursive := none,
        baseDir := none, comments := none, commentChar := none } := rfl

/-- Claim C6: with the common flag enabled, a missing common file fails
the whole load with the I/O error and a malformed common file fails it
with `InvalidProperty`; an absent common file is never silently skipped. -/
theorem c6_missing_or_malformed_common_fails (cfg : Config)
    (fs : String → Option (List String)) (hc : cfg.common = some true) :
    (fs (envFileName Kind.Common) = none → loadEnv cfg fs = .error .Io) ∧
    (∀ ls line, fs (envFileName Kind.Common) = some ls → line ∈ ls →
      (splitOnChar '=' line.data).length ≠ 2 →
      loadEnv cfg fs = .error .InvalidProperty) :=
  ⟨fun hnone => loadEnv_common_missing cfg fs hc hnone,
   fun ls line hfs hmem hsplit =>
     loadEnv_common_bad_line cfg fs ls line hc hfs hmem hsplit⟩

/-- Claim C6 witness: in an empty directory, loading `Development` with
the common flag set fails with the I/O error. -/
theorem c6_missing_or_malformed_common_fails_witness :
    loadEnv (Config.new Kind.Development) noneFs = Except.error ErrorKind.Io :=
  (c6_missing_or_malformed_common_fails (Config.new Kind.Development) noneFs
    rfl).1 rfl

/-- Claim C7: with comments enabled and comment character `ch`, a line
whose first character is `ch` is skipped entirely by the line loop and
contributes no entry; concretely, loading kind `Test` (comments enabled,
`'#'`, common disabled) from the fixture's test file yields exactly
`url -> https://testurl.vidar.com`. -/
theorem c7_comment_lines_skipped :
    (∀ (cfg : Config) (ch : Char) (line : String) (rest : List String)
        (p : List (String × String)),
        cfg.comments = some true → cfg.commentChar = some ch →
        firstCharIs line ch = true →
        readLines cfg p (line :: rest) = readLines cfg p rest) ∧
    loadEnv ⟨Kind.Test, none, none, none, some true, some '#'⟩ fixtureFs =
      .ok ⟨Kind.Test, [("url", "https://testurl.vidar.com")]⟩ := by
  constructor
  · intro cfg ch line rest p h1 h2 h3
    have hcl : isCommentLine cfg line = true := by
      simp [isCommentLine, h1, h2, h3]
    simp [readLines, processLine, hcl]
  · rfl

/-- Claim C7 witness: the fixture's comment line is dropped by the line
loop. -/
theorem c7_comment_lines_skipped_witness :
    readLines ⟨Kind.Test, none, none, none, some true, some '#'⟩ []
        ["# This is a comment", "url=https://testurl.vidar.com"] =
      readLines ⟨Kind.Test, none, none, none, some true, some '#'⟩ []
        ["url=https://testurl.vidar.com"] :=
  c7_comment_lines_skipped.1 ⟨Kind.Test, none, none, none, some true, some '#'⟩
    '#' "# This is a comment" ["url=https://testurl.vidar.com"] [] rfl rfl rfl

/-- Claim C8: the load is deterministic in the configuration and the
directory contents: two successful loads of the same config over the same
files agree on both `current` and `props`. -/
theorem c8_load_deterministic (cfg : Config)
    (fs : String → Option (List String)) (e1 e2 : Environment)
    (h1 : loadEnv cfg fs = .ok e1) (h2 : loadEnv cfg fs = .ok e2) :
    e1.current = e2.current ∧ e1.props = e2.props := by
  rw [h1] at h2
  injection h2 with h
  exact ⟨by rw [h], by rw [h]⟩

/-- Claim C8 witness: loading `Development` from the fixture twice yields
the same kind and map. -/
theorem c8_load_deterministic_witness :
    (⟨Kind.Development, [("key1", "val1"), ("key2", "val2"), ("key3", "val3"),
        ("url", "https://localhost")]⟩ : Environment).current =
      (⟨Kind.Development, [("key1", "val1"), ("key2", "val2"),
        ("key3", "val3"), ("url", "https://localhost")]⟩ :
          Environment).current ∧
    (⟨Kind.Development, [("key1", "val1"), ("key2", "val2"), ("key3", "val3"),
        ("url", "https://localhost")]⟩ : Environment).props =
      (⟨Kind.Development, [("key1", "val1"), ("key2", "val2"),
        ("key3", "val3"), ("url", "https://localhost")]⟩ :
          Environment).props :=
  c8_load_deterministic (Config.new Kind.Development) fixtureFs
    ⟨Kind.Development, [("key1", "val1"), ("key2", "val2"), ("key3", "val3"),
      ("url", "https://localhost")]⟩
    ⟨Kind.Development, [("key1", "val1"), ("key2", "val2"), ("key3", "val3"),
      ("url", "https://localhost")]⟩ rfl rfl

/-- Claim C9, counterexample: with comments enabled and `'#'` configured,
the common-file line `#a=b` starts with the comment character, yet the
load succeeds (the line is parsed as the property `#a -> b` by the
defaulted common-phase config), refuting that every such line fails the
load with `InvalidProperty`. -/
theorem c9_common_comment_counterexample :
    firstCharIs "#a=b" '#' = true ∧
    (⟨Kind.Development, some true, none, none, some true, some '#'⟩ :
      Config).comments = some true ∧
    c9Fs (envFileName Kind.Common) = some ["#a=b"] ∧
    loadEnv ⟨Kind.Development, some true, none, none, some true, some '#'⟩
        c9Fs =
      .ok ⟨Kind.Development, [("#a", "b"), ("url", "x")]⟩ :=
  ⟨rfl, rfl, rfl, rfl⟩

/-- Claim C9 as amended: the caller's comment options apply only to the
kind-specific file; the common file is parsed with a freshly defaulted
config, so a line starting with the configured comment character is not
skipped there — it is parsed as an ordinary property line and, when it
does not split into exactly two fields on the equals sign, fails the load
with `InvalidProperty` even though the caller enabled comments with that
character. -/
theorem c9_common_parsed_without_comments (cfg : Config)
    (fs : String → Option (List String)) (ch : Char) (ls : List String)
    (line : String) (hc : cfg.common = some true)
    (_h1 : cfg.comments = some true) (_h2 : cfg.commentChar = some ch)
    (hfs : fs (envFileName Kind.Common) = some ls) (hmem : line ∈ ls)
    (_hstart : firstCharIs line ch = true)
    (hsplit : (splitOnChar '=' line.data).length ≠ 2) :
    loadEnv cfg fs = .error .InvalidProperty :=
  loadEnv_common_bad_line cfg fs ls line hc hfs hmem hsplit

/-- Claim C9 witness: a caller with comments enabled and `'#'` still fails
the load when the common file holds the comment line. -/
theorem c9_common_parsed_without_comments_witness :
    loadEnv ⟨Kind.Development, some true, none, none, some true, some '#'⟩
        c9BadFs =
      .error .InvalidProperty :=
  c9_common_parsed_without_comments
    ⟨Kind.Development, some true, none, none, some true, some '#'⟩ c9BadFs '#'
    ["# This is a comment"] "# This is a comment" rfl rfl rfl rfl (by decide)
    rfl (by decide)

/-- Claim C10: the `recursive` and `base_dir` fields are never consulted:
two configs agreeing on `kind`, `common`, `comments` and `commentChar`
load identically over any directory contents. -/
theorem c10_base_dir_recursive_no_effect (a b : Config)
    (fs : String → Option (List String)) (hk : a.kind = b.kind)
    (hc : a.common = b.common) (hm : a.comments = b.comments)
    (hch : a.commentChar = b.commentChar) :
    loadEnv a fs = loadEnv b fs := by
  unfold loadEnv commonProps
  rw [hc, hk]
  simp only [read_props_file_congr a b hk hm hch fs]

/-- Claim C10 witness: setting `recursive` and a base directory changes
nothing about a fixture load. -/
theorem c10_base_dir_recursive_no_effect_witness :
    loadEnv ⟨Kind.Development, some true, some true, some "/tmp/vidar", none,
        none⟩ fixtureFs =
      loadEnv ⟨Kind.Development, some true, none, none, none, none⟩
        fixtureFs :=
  c10_base_dir_recursive_no_effect
    ⟨Kind.Development, some true, some true, some "/tmp/vidar", none, none⟩
    ⟨Kind.Development, some true, none, none, none, none⟩ fixtureFs rfl rfl
    rfl rfl

end Vidar
